import Mathlib

/-!
Shallow embedding of vfio-kvm.py: a D-Bus service that replicates input
devices for libvirt virtual machines.  Definitions mirror the Python source;
theorems check the specification's claims against them.

Modelling conventions:
* Python `None`/string values (the host sentinel versus a VM name) become
  `Option String`; Python truthiness of such a value is `pyTruthy`.
* Python dicts (insertion ordered, unique keys) become association lists
  with `assocGet` / `assocSet` / `assocErase` mirroring lookup, in-place
  update-or-append, and `del`.
* Machine I/O (evdev grabs, uinput writes, D-Bus signals) is modelled by
  explicit event lists and by boolean oracles for the environment
  (`env : String → Bool` says whether a path is an existing character
  device; `sinkGrabFails` says whether probing the active sink raises
  IOError).
* Exceptions become `Except String` results; the Python `try` blocks that
  swallow exceptions become explicit success flags, with any state mutated
  before the raise retained, exactly as in the source.
-/

/-- A hotkey is a frozenset of kernel key codes (Python `FrozenSet[int]`). -/
abbrev Hotkey : Type := Finset Nat

/-- Python truthiness of an `Optional[str]`: `None` and the empty string are falsy. -/
def pyTruthy : Option String → Bool
  | none => false
  | some s => !(s = "")

/-- Python truthiness of an `Optional[Hotkey]`: `None` and the empty frozenset are falsy. -/
def hkTruthy : Option Hotkey → Bool
  | none => false
  | some h => !(h = (∅ : Finset Nat))

/-- Python `val or "host device"` used as the display form of a target. -/
def pyDisplay : Option String → String
  | none => "host device"
  | some v => if v = "" then "host device" else v

/-- Lookup in a Python dict modelled as an association list (first match). -/
def assocGet {α β : Type} [DecidableEq α] : List (α × β) → α → Option β
  | [], _ => none
  | (a, b) :: t, k => if a = k then some b else assocGet t k

/-- `d[k] = v` on a Python dict: update in place if the key exists, else append. -/
def assocSet {α β : Type} [DecidableEq α] : List (α × β) → α → β → List (α × β)
  | [], k, v => [(k, v)]
  | (a, b) :: t, k, v => if a = k then (k, v) :: t else (a, b) :: assocSet t k v

/-- `del d[k]` / `d.pop(k, None)` on a Python dict: drop the entry if present. -/
def assocErase {α β : Type} [DecidableEq α] : List (α × β) → α → List (α × β)
  | [], _ => []
  | (a, b) :: t, k => if a = k then t else (a, b) :: assocErase t k

/-- Python `list.index` as used by `toggle`: index of the first occurrence,
`none` standing for the `ValueError` raised when the element is absent. -/
def listIndex {α : Type} [DecidableEq α] : List α → α → Option Nat
  | [], _ => none
  | a :: t, x => if a = x then some 0 else (listIndex t x).map (· + 1)

/-- Split a character list on a separator, Python `str.split` style: the
empty input yields one empty field, a trailing separator a trailing empty
field. -/
def splitOnChar (sep : Char) : List Char → List (List Char)
  | [] => [[]]
  | c :: t =>
    let r := splitOnChar sep t
    if c = sep then [] :: r
    else (c :: r.headD []) :: r.tail

/-- Python string slicing `s[n:]` (character positions). -/
def strDrop (s : String) (n : Nat) : String :=
  ⟨s.data.drop n⟩

/-- Python `str.startswith`. -/
def strStartsWith (s pre : String) : Bool :=
  pre.data.isPrefixOf s.data

/-- `os.path.basename`: the part of a path after the last slash. -/
def pathBasename (p : String) : String :=
  ⟨(p.data.reverse.takeWhile (fun c => ¬ c = '/')).reverse⟩

/-- The relevant fields of a parsed libvirt domain XML document, i.e. the
values the `xml.etree` queries in `VmConfig.__init__` read off the tree:
the `name` text, presence of `memoryBacking/hugepages`, the `memory` text in
KiB, the `cpuset` attributes of `cputune/vcpupin` (with the source's default
of 0 for a missing attribute already applied), the `evdev` attributes of
passthrough input sources (missing attribute read as the empty string), and
the `value` attributes of `qemu:commandline/qemu:arg`. -/
structure DomainXml where
  name : Option String
  hugepages : Bool
  memoryKiB : Nat
  vcpupinCpusets : List Nat
  inputEvdevs : List String
  qemuArgValues : List String
  deriving DecidableEq

/-- The device-path extraction of `VmConfig.__init__`: passthrough input
`evdev` attributes filtered by the prefix `/dev/input/by-id/` + name + `-`,
united with the `evdev=`-prefixed comma-separated parameters of qemu args
(their leading 6 characters `evdev=` stripped).  The Python set union is
modelled by concatenation followed by `eraseDups`; the redundant
`"evdev=" in val` pre-check of the source is subsumed by the per-parameter
prefix filter. -/
def vmDevices (name : String) (inputEvdevs qemuArgValues : List String) : List String :=
  let pref := "/dev/input/by-id/" ++ name ++ "-"
  let fromInputs := inputEvdevs.filter (fun dev => strStartsWith dev pref)
  let fromArgs :=
    (qemuArgValues.map (fun val =>
      (((splitOnChar ',' val.data).map (fun cs => (⟨cs⟩ : String))).filter
        (fun param => strStartsWith param ("evdev=" ++ pref))).map
        (fun param => strDrop param 6))).flatten
  (fromInputs ++ fromArgs).eraseDups

/-- The parsed outcome of one domain XML (`VmConfig`).  `hugepages2M` is a
rational because the source computes it with Python float division `/ 2`. -/
structure VmConfig where
  hugepages1G : Nat
  hugepages2M : ℚ
  cpu : List Nat
  devices : List String
  deriving DecidableEq

instance {ε α : Type} [DecidableEq ε] [DecidableEq α] : DecidableEq (Except ε α) := fun a b =>
  match a, b with
  | .ok x, .ok y => if h : x = y then .isTrue (by rw [h]) else .isFalse (by simpa using h)
  | .error x, .error y => if h : x = y then .isTrue (by rw [h]) else .isFalse (by simpa using h)
  | .ok _, .error _ => .isFalse (by simp)
  | .error _, .ok _ => .isFalse (by simp)

/-- `VmConfig.__init__` on an XML string: `none` stands for an XML document
that fails to parse (`xml.fromstring` raises).  On a parsed document it
mirrors the arithmetic of the source exactly: `mem_in_mb = memory // 1024`,
`mem_in_gb = mem_in_mb // 1024`, `extra_memory = mem_in_mb % 2`, and, when
the hugepages element is present,
`hugepages2M = mem_in_mb % mem_in_gb / 2 + extra_memory`, which raises
`ZeroDivisionError` when `mem_in_gb` is 0.  A missing name renders as the
string `None` in the path prefix, as a Python f-string does. -/
def VmConfig.parse : Option DomainXml → Except String VmConfig
  | none => .error "XmlParseError"
  | some d =>
    let name := d.name.getD "None"
    let mem_in_mb := d.memoryKiB / 1024
    let mem_in_gb := mem_in_mb / 1024
    let extra_memory := mem_in_mb % 2
    if d.hugepages ∧ mem_in_gb = 0 then .error "ZeroDivisionError"
    else
      .ok { hugepages1G := if d.hugepages then mem_in_gb else 0
            hugepages2M :=
              if d.hugepages then ((mem_in_mb % mem_in_gb : Nat) : ℚ) / 2 + (extra_memory : ℚ)
              else 0
            cpu := d.vcpupinCpusets
            devices := vmDevices name d.inputEvdevs d.qemuArgValues }

/-- Modelled from the spec: the hugepage formula the specification states for
the claim, `hugepages1G = MiB / 1024` and `hugepages2M = ceil((MiB mod 1024) / 2)`
with `MiB = KiB / 1024`, both 0 when the hugepages element is absent, and
total (no error) on every memory value.  Used only to compare the claim's
formula with the source's arithmetic. -/
def hugepagesClaim (present : Bool) (memoryKiB : Nat) : Nat × Nat :=
  if present then
    let mib := memoryKiB / 1024
    (mib / 1024, (mib % 1024 + 1) / 2)
  else (0, 0)

/-- The hugepage arithmetic the source actually performs, written as a
standalone function of the hugepages flag and the memory in KiB: the
corrected form of the claim. -/
def hugepagesCode (present : Bool) (memoryKiB : Nat) : Except String (Nat × ℚ) :=
  let mem_in_mb := memoryKiB / 1024
  let mem_in_gb := mem_in_mb / 1024
  if present then
    if mem_in_gb = 0 then .error "ZeroDivisionError"
    else .ok (mem_in_gb, ((mem_in_mb % mem_in_gb : Nat) : ℚ) / 2 + ((mem_in_mb % 2 : Nat) : ℚ))
  else .ok (0, 0)

/-- The mutable per-source-path state of a `ReplicatedDevice`.  `sinks` holds
the keys of the `_targets` dict of synthetic uinput devices (insertion
ordered; `none` is the host sink created by `start`); `hotkeys` is the
`_hotkeys` dict mapping a frozenset of key codes to the VM it selects
(`none` selecting the host).  `grabTask` / `replicateTask` record whether
the corresponding task handle is non-`None`; `stop` cancels the tasks but,
as in the source, leaves the handles set. -/
structure ReplicatedDevice where
  sourcePath : String
  sourceOpen : Bool
  grabbed : Bool
  grabTask : Bool
  replicateTask : Bool
  sinks : List (Option String)
  hotkeys : List (Hotkey × Option String)
  deriving DecidableEq

/-- Insertion of a key into the `_targets` dict of sinks: a fresh key is
appended, an existing key keeps its position (the dict entry is overwritten
in place). -/
def insertSinkKey (ks : List (Option String)) (k : Option String) : List (Option String) :=
  if k ∈ ks then ks else ks ++ [k]

/-- The fields a freshly constructed `ReplicatedDevice` carries once the
character-device check has passed: source not yet opened, nothing grabbed,
no tasks, no sinks, and the host hotkey installed when truthy. -/
def freshDevice (source : String) (hostHotkey : Option Hotkey) : ReplicatedDevice :=
  { sourcePath := source
    sourceOpen := false
    grabbed := false
    grabTask := false
    replicateTask := false
    sinks := []
    hotkeys := if hkTruthy hostHotkey then [(hostHotkey.getD ∅, none)] else [] }

/-- `ReplicatedDevice.__init__`: raises IOError when the source path is not
an existing character device (`env` is that check on the file system). -/
def ReplicatedDevice.new (env : String → Bool) (source : String)
    (hostHotkey : Option Hotkey) : Except String ReplicatedDevice :=
  if env source then .ok (freshDevice source hostHotkey)
  else .error "IOError: No such device"

/-- `ReplicatedDevice.start`: lazily open the source and create the host sink
(key `None`), then create each background task that has no handle yet. -/
def ReplicatedDevice.start (d : ReplicatedDevice) : ReplicatedDevice :=
  let d := if d.sourceOpen then d
           else { d with sourceOpen := true, sinks := insertSinkKey d.sinks none }
  let d := if d.grabTask then d else { d with grabTask := true }
  if d.replicateTask then d else { d with replicateTask := true }

/-- `ReplicatedDevice.stop`: cancel both tasks (the handles stay set, as in
the source), destroy every sink, ungrab and close the source. -/
def ReplicatedDevice.stop (d : ReplicatedDevice) : ReplicatedDevice :=
  { d with sinks := [], grabbed := false, sourceOpen := false }

/-- `ReplicatedDevice.add`: install the guest hotkey when truthy (overwriting
any prior mapping of that key set), ensure the device is started, and create
the sink keyed by the VM name. -/
def ReplicatedDevice.add (d : ReplicatedDevice) (vmName : String)
    (hotkey : Option Hotkey) : ReplicatedDevice :=
  let d := if hkTruthy hotkey then
             { d with hotkeys := assocSet d.hotkeys (hotkey.getD ∅) (some vmName) }
           else d
  let d := d.start
  { d with sinks := insertSinkKey d.sinks (some vmName) }

/-- `ReplicatedDevice.remove`: destroy the sink keyed by the VM name, drop the
guest hotkey when truthy, and stop the device when only the host sink is
left. -/
def ReplicatedDevice.remove (d : ReplicatedDevice) (vmName : String)
    (hotkey : Option Hotkey) : ReplicatedDevice :=
  let d := { d with sinks := d.sinks.erase (some vmName) }
  let d := if hkTruthy hotkey then { d with hotkeys := assocErase d.hotkeys (hotkey.getD ∅) }
           else d
  if d.sinks.length = 1 then d.stop else d

/-- An event observable at a sink: an `EV_KEY` write with a key code and a
value (1 press, 0 release), or a `SYN` report. -/
inductive GEvent where
  | keyEvent (code : Nat) (value : Nat)
  | syn
  deriving DecidableEq

/-- `ReplicatedDevice.grab`: the events this call writes to the active sink.
`managerTarget` is the value of the service's Target property getter (so a
released service reports the host sentinel here); `qemuHotkey` is the
service's QEMU hotkey with a fixed iteration order for the frozenset;
`sinkGrabFails` tells whether the exclusive grab-and-release probe of the
active sink raises IOError.  A falsy target (None or the empty string) and a
failed probe both produce no events; otherwise one press of every key, then
one release of every key, then a single SYN. -/
def ReplicatedDevice.grabWrites (managerTarget : Option String)
    (qemuHotkey : Option (List Nat)) (sinkGrabFails : Bool) : List GEvent :=
  if !pyTruthy managerTarget then []
  else if sinkGrabFails then []
  else
    ((qemuHotkey.getD []).map (fun k => GEvent.keyEvent k 1) ++
     (qemuHotkey.getD []).map (fun k => GEvent.keyEvent k 0)) ++ [GEvent.syn]

/-- An event observable at the service boundary: a `grab()` call on the
replicated device registered at a source path, or a D-Bus
`PropertiesChanged` signal carrying the display form of the target. -/
inductive SEvent where
  | grabCalled (source : String)
  | propertiesChanged (display : String)
  deriving DecidableEq

/-- The state of `VfioKvmService`: the released flag, per-name options
(`_vm_options`, storing each `VmOptions.hotkey`), the registry of replicated
devices keyed by source path, the target ring (`_targets`, starting with the
host sentinel `None`), the active target, and the immutable configuration. -/
structure ServiceState where
  released : Bool
  vmOptions : List (Option String × Option Hotkey)
  devices : List (String × ReplicatedDevice)
  targets : List (Option String)
  target : Option String
  manageCpu : Bool
  manageHugepages : Bool
  hotkey : Option Hotkey
  qemuHotkey : Option Hotkey
  releaseHotkey : Option Hotkey
  deriving DecidableEq

/-- The service state right after `__init__` ran `_configure`: no devices,
the target ring holding only the host sentinel, the host active, and the
configuration fields as the YAML produced them. -/
def ServiceState.init (vmOptions : List (Option String × Option Hotkey))
    (manageCpu manageHugepages : Bool)
    (hotkey qemuHotkey releaseHotkey : Option Hotkey) : ServiceState :=
  { released := false
    vmOptions := vmOptions
    devices := []
    targets := [none]
    target := none
    manageCpu := manageCpu
    manageHugepages := manageHugepages
    hotkey := hotkey
    qemuHotkey := qemuHotkey
    releaseHotkey := releaseHotkey }

/-- The Target property getter: the host sentinel when released, else the
current target. -/
def ServiceState.targetGet (s : ServiceState) : Option String :=
  if s.released then none else s.target

/-- Result of the Target property setter: the new state and the events it
produced. -/
structure SetResult where
  state : ServiceState
  events : List SEvent
  deriving DecidableEq

/-- The Target property setter: writing the current target is a no-op with no
event; any other value clears the released flag, assigns the target, calls
`grab()` on every replicated device in registry order, and emits one
`PropertiesChanged` with the display form `val or "host device"`. -/
def ServiceState.setTarget (s : ServiceState) (val : Option String) : SetResult :=
  if val = s.target then { state := s, events := [] }
  else
    { state := { s with released := false, target := val }
      events := s.devices.map (fun p => SEvent.grabCalled p.1) ++
                [SEvent.propertiesChanged (pyDisplay val)] }

/-- Result of the Toggle method: the new state, the events produced, the
string the method returns (read back through the Target getter), and whether
the call completed without raising (`list.index` raises ValueError when the
current target is not in the ring). -/
structure ToggleResult where
  state : ServiceState
  events : List SEvent
  ret : Option String
  ok : Bool
  deriving DecidableEq

/-- The Toggle method: advance the target to the ring entry after the first
occurrence of the current target, through the Target setter, and return the
value of the Target getter on the new state. -/
def ServiceState.toggle (s : ServiceState) : ToggleResult :=
  match listIndex s.targets s.target with
  | none => { state := s, events := [], ret := none, ok := false }
  | some i =>
    let r := s.setTarget (s.targets.getD ((i + 1) % s.targets.length) none)
    { state := r.state, events := r.events, ret := r.state.targetGet, ok := true }

/-- The source path `_create_devices` and `_destroy_devices` derive from a
requested guest device path: `/dev/input/by-id/` joined with the basename of
the guest path stripped of its first `len(vm_name) + 1` characters. -/
def sourceFor (vmName guestSource : String) : String :=
  "/dev/input/by-id/" ++ strDrop (pathBasename guestSource) (vmName.length + 1)

/-- `VfioKvmService._create_devices`: walk the requested guest paths; for
each, create a `ReplicatedDevice` for the derived source if the registry has
none (an IOError from its constructor aborts the walk with the registry as
mutated so far, the flag false), then `add` the VM to it.  Returns the new
registry and whether the walk completed without raising. -/
def createDevices (env : String → Bool) (vmName : String)
    (hostHotkey guestHotkey : Option Hotkey) :
    List (String × ReplicatedDevice) → List String →
    List (String × ReplicatedDevice) × Bool
  | devs, [] => (devs, true)
  | devs, guestSource :: rest =>
    let src := sourceFor vmName guestSource
    match assocGet devs src with
    | some dev =>
      createDevices env vmName hostHotkey guestHotkey
        (assocSet devs src (dev.add vmName guestHotkey)) rest
    | none =>
      match ReplicatedDevice.new env src hostHotkey with
      | .error _ => (devs, false)
      | .ok dev =>
        createDevices env vmName hostHotkey guestHotkey
          (assocSet devs src (dev.add vmName guestHotkey)) rest

/-- `VfioKvmService._destroy_devices`: walk the requested guest paths; for
each, look the derived source up in the registry (a missing entry is the
KeyError the source raises, aborting the walk with the registry as mutated
so far), call `remove(vm_name)` on it — the call site passes no guest hotkey
— and, when this release dropped the last VM, delete the registry entry. -/
def destroyDevices (vmName : String) (isLastVm : Bool) :
    List (String × ReplicatedDevice) → List String →
    List (String × ReplicatedDevice) × Bool
  | devs, [] => (devs, true)
  | devs, guestSource :: rest =>
    let src := sourceFor vmName guestSource
    match assocGet devs src with
    | none => (devs, false)
    | some dev =>
      let devs := assocSet devs src (dev.remove vmName none)
      let devs := if isLastVm then assocErase devs src else devs
      destroyDevices vmName isLastVm devs rest

/-- Result of the Prepare method: the new state and the boolean the D-Bus
call returns. -/
structure PrepResult where
  state : ServiceState
  ok : Bool
  deriving DecidableEq

/-- The Prepare method: parse the XML (any exception is caught and reported
as `false` with the state unchanged), append the VM name to the target ring,
log-only pin CPUs and allocate hugepages, then create the requested devices
with the host and per-VM hotkeys from `_vm_options`; an exception there is
caught and reported as `false`, the ring and registry keeping every mutation
made before the raise. -/
def ServiceState.prepare (s : ServiceState) (env : String → Bool)
    (vmName : String) (x : Option DomainXml) : PrepResult :=
  match VmConfig.parse x with
  | .error _ => { state := s, ok := false }
  | .ok config =>
    let s1 := { s with targets := s.targets ++ [some vmName] }
    let hostHotkey := (assocGet s1.vmOptions none).getD none
    let guestHotkey := (assocGet s1.vmOptions (some vmName)).getD none
    let r := createDevices env vmName hostHotkey guestHotkey s1.devices config.devices
    { state := { s1 with devices := r.1 }, ok := r.2 }

/-- Result of the Release method: the new state, the events produced (by the
Target setter when the released VM was the active target), and the boolean
the D-Bus call returns. -/
structure RelResult where
  state : ServiceState
  events : List SEvent
  ok : Bool
  deriving DecidableEq

/-- The Release method: a VM name not in the target ring returns false with
nothing changed; an XML that fails to parse returns false with nothing
changed; otherwise the first occurrence of the VM name is removed from the
ring, the target is reset to the host through the Target setter if it was
this VM, and the requested devices are destroyed (`is_last_vm` being whether
the ring now holds only the host); an exception during destruction is caught
and reported as `false`, keeping every mutation made before the raise. -/
def ServiceState.release (s : ServiceState) (vmName : String)
    (x : Option DomainXml) : RelResult :=
  if some vmName ∈ s.targets then
    match VmConfig.parse x with
    | .error _ => { state := s, events := [], ok := false }
    | .ok config =>
      let s1 := { s with targets := s.targets.erase (some vmName) }
      let r := if s1.target = some vmName then s1.setTarget none
               else { state := s1, events := [] }
      let d := destroyDevices vmName (r.state.targets.length == 1)
                 r.state.devices config.devices
      { state := { r.state with devices := d.1 }, events := r.events, ok := d.2 }
  else { state := s, events := [], ok := false }

/-- Iterated Toggle (the state component only). -/
def toggleN : Nat → ServiceState → ServiceState
  | 0, s => s
  | n + 1, s => toggleN n s.toggle.state

/-- The states reachable from a fresh service by Prepare, Release, Toggle,
and D-Bus writes of the Target property restricted to values currently in
the target ring. -/
inductive ReachableM (env : String → Bool)
    (vmOptions : List (Option String × Option Hotkey))
    (manageCpu manageHugepages : Bool)
    (hotkey qemuHotkey releaseHotkey : Option Hotkey) : ServiceState → Prop where
  | init : ReachableM env vmOptions manageCpu manageHugepages hotkey qemuHotkey releaseHotkey
      (ServiceState.init vmOptions manageCpu manageHugepages hotkey qemuHotkey releaseHotkey)
  | prepare {s} (vmName : String) (x : Option DomainXml) :
      ReachableM env vmOptions manageCpu manageHugepages hotkey qemuHotkey releaseHotkey s →
      ReachableM env vmOptions manageCpu manageHugepages hotkey qemuHotkey releaseHotkey
        (s.prepare env vmName x).state
  | release {s} (vmName : String) (x : Option DomainXml) :
      ReachableM env vmOptions manageCpu manageHugepages hotkey qemuHotkey releaseHotkey s →
      ReachableM env vmOptions manageCpu manageHugepages hotkey qemuHotkey releaseHotkey
        (s.release vmName x).state
  | toggle {s} :
      ReachableM env vmOptions manageCpu manageHugepages hotkey qemuHotkey releaseHotkey s →
      ReachableM env vmOptions manageCpu manageHugepages hotkey qemuHotkey releaseHotkey
        s.toggle.state
  | writeTarget {s} (val : Option String) :
      ReachableM env vmOptions manageCpu manageHugepages hotkey qemuHotkey releaseHotkey s →
      val ∈ s.targets →
      ReachableM env vmOptions manageCpu manageHugepages hotkey qemuHotkey releaseHotkey
        (s.setTarget val).state

/-- The invariant of claim C2: the active target is in the target ring and
the ring starts with the host sentinel. -/
def TargetInvariant (s : ServiceState) : Prop :=
  s.target ∈ s.targets ∧ s.targets.head? = some none

/-- A domain XML with no passthrough devices, no hugepages, no memory. -/
def xmlPlain : DomainXml :=
  { name := some "a", hugepages := false, memoryKiB := 0,
    vcpupinCpusets := [], inputEvdevs := [], qemuArgValues := [] }

/-- A domain XML requesting hugepages with a given memory in KiB. -/
def xmlHuge (memoryKiB : Nat) : DomainXml :=
  { name := some "a", hugepages := true, memoryKiB := memoryKiB,
    vcpupinCpusets := [], inputEvdevs := [], qemuArgValues := [] }

/-- A domain XML for VM `v` requesting one passthrough device. -/
def xmlV : DomainXml :=
  { name := some "v", hugepages := false, memoryKiB := 0,
    vcpupinCpusets := [], inputEvdevs := ["/dev/input/by-id/v-kbd"],
    qemuArgValues := [] }

/-- The `VmConfig` that `xmlV` parses to. -/
def cfgV : VmConfig :=
  { hugepages1G := 0, hugepages2M := 0, cpu := [],
    devices := ["/dev/input/by-id/v-kbd"] }

/-- A domain XML for VM `v` whose three distinct requested paths map to only
two distinct sources (the second path repeats the source of the first). -/
def xmlMulti : DomainXml :=
  { name := some "v", hugepages := false, memoryKiB := 0,
    vcpupinCpusets := [],
    inputEvdevs := ["/dev/input/by-id/v-kbd", "/dev/input/by-id/v-x/v-kbd",
                    "/dev/input/by-id/v-ms"],
    qemuArgValues := [] }

/-- A file system with no character devices at all. -/
def envNone : String → Bool := fun _ => false

/-- A file system where exactly the two source paths `kbd` and `ms` under
`/dev/input/by-id/` are existing character devices. -/
def envKbdMs : String → Bool := fun s =>
  decide (s = "/dev/input/by-id/kbd") || decide (s = "/dev/input/by-id/ms")

/-- A fresh service with empty configuration. -/
def s0 : ServiceState := ServiceState.init [] false false none none none

/-- The fresh service after one successful Prepare of the device-less VM `a`. -/
def sOne : ServiceState := (s0.prepare envNone "a" (some xmlPlain)).state

/-- The fresh service after preparing the device-less VM `a` twice: the
target ring holds the duplicate entry twice. -/
def sDup : ServiceState := (sOne.prepare envNone "a" (some xmlPlain)).state

/-- The fresh service after one successful Prepare of the device-less VM `w`:
a second VM is registered but owns no devices. -/
def sW : ServiceState := (s0.prepare envKbdMs "w" (some xmlPlain)).state

/-- A replicated device for the `kbd` source that has been stopped. -/
def staleDev : ReplicatedDevice := (freshDevice "/dev/input/by-id/kbd" none).stop

/-- A service with no registered VM but a stale (stopped) device entry left
in the registry. -/
def sStale : ServiceState := { s0 with devices := [("/dev/input/by-id/kbd", staleDev)] }

/-- A service whose registry holds one fresh replicated device for `kbd`. -/
def sKbd : ServiceState := { s0 with devices := [("/dev/input/by-id/kbd", freshDevice "/dev/input/by-id/kbd" none)] }

/-- A service that has VM `v` in its target ring but no devices: tearing its
device down raises KeyError. -/
def sNine : ServiceState := { s0 with targets := [none, some "v"] }

set_option maxRecDepth 100000

theorem eraseDups_nil : ([] : List String).eraseDups = [] := rfl

/-- C1 counterexample: the claim's hugepage formula and its totality both
fail on the code.  For a parsed domain with hugepages and 2099200 KiB
(2050 MiB) the code yields 0 two-MiB pages where the claim's formula
`ceil((MiB mod 1024) / 2)` yields 1; and for 524288 KiB (512 MiB, below one
GiB) the code raises ZeroDivisionError where the claim promises success. -/
theorem C1_counterexample :
    VmConfig.parse (some (xmlHuge 2099200)) =
      .ok { hugepages1G := 2, hugepages2M := 0, cpu := [], devices := [] } ∧
    (hugepagesClaim true 2099200).2 = 1 ∧
    VmConfig.parse (some (xmlHuge 524288)) = .error "ZeroDivisionError" ∧
    (hugepagesClaim true 524288).1 = 0 ∧ (hugepagesClaim true 524288).2 = 256 := by
  refine ⟨?_, ?_, ?_, ?_, ?_⟩ <;>
    norm_num [VmConfig.parse, vmDevices, xmlHuge, hugepagesClaim, eraseDups_nil]

/-- C1 (amended): for every parsed domain XML, VmConfig performs exactly the
arithmetic of `hugepagesCode`: with hugepages present it computes
`hugepages1G = (K / 1024) / 1024` and
`hugepages2M = ((K / 1024) mod hugepages1G) / 2 + ((K / 1024) mod 2)` by
exact (float) division, raising ZeroDivisionError whenever the memory is
below one GiB; with the element absent both counts are 0 and no error is
possible. -/
theorem C1_amended (d : DomainXml) :
    VmConfig.parse (some d) =
      (hugepagesCode d.hugepages d.memoryKiB).map (fun hp =>
        { hugepages1G := hp.1, hugepages2M := hp.2, cpu := d.vcpupinCpusets,
          devices := vmDevices (d.name.getD "None") d.inputEvdevs d.qemuArgValues }) := by
  unfold VmConfig.parse hugepagesCode
  by_cases h : d.hugepages <;>
    by_cases h2 : d.memoryKiB / 1024 / 1024 = 0 <;>
      simp [h, h2, Except.map]

/-- C3: the Target property getter returns the host sentinel when released
and the current target otherwise; writing the current target is a no-op with
no event; writing any other value clears the released flag, assigns the
target, calls grab() on every replicated device in the registry and emits
one PropertiesChanged whose display form is "host device" for the host
sentinel. -/
theorem C3_target_property (s : ServiceState) (val : Option String) :
    s.targetGet = (if s.released then none else s.target) ∧
    (val = s.target → s.setTarget val = { state := s, events := [] }) ∧
    (val ≠ s.target →
      (s.setTarget val).state.released = false ∧
      (s.setTarget val).state.target = val ∧
      (s.setTarget val).events =
        s.devices.map (fun p => SEvent.grabCalled p.1) ++
        [SEvent.propertiesChanged (pyDisplay val)]) ∧
    pyDisplay none = "host device" := by
  refine ⟨rfl, ?_, ?_, rfl⟩ <;> intro h <;>
    simp [ServiceState.setTarget, h]

/-- C3 witness: on a service with one device whose target is the host,
writing the VM name "vm" clears the released flag, sets the target, reports
a grab on the device and a PropertiesChanged with display "vm". -/
theorem C3_target_property_witness :
    (sKbd.setTarget (some "vm")).state.released = false ∧
    (sKbd.setTarget (some "vm")).state.target = some "vm" ∧
    (sKbd.setTarget (some "vm")).events =
      [SEvent.grabCalled "/dev/input/by-id/kbd",
       SEvent.propertiesChanged "vm"] := by
  have h := (C3_target_property sKbd (some "vm")).2.2.1 (by decide)
  refine ⟨h.1, h.2.1, ?_⟩
  rw [h.2.2]
  decide

/-- C5: Release returns false with the whole state unchanged when the VM name
is not in the target ring, and likewise when the XML fails to parse
(`targets` in particular is exactly as before the call). -/
theorem C5_release_guards (s : ServiceState) (vmName : String) (x : Option DomainXml) :
    (some vmName ∉ s.targets →
      s.release vmName x = { state := s, events := [], ok := false }) ∧
    (∀ e, VmConfig.parse x = .error e →
      s.release vmName x = { state := s, events := [], ok := false }) := by
  constructor
  · intro h
    simp [ServiceState.release, h]
  · intro e he
    by_cases hm : some vmName ∈ s.targets <;>
      simp [ServiceState.release, hm, he]

/-- C5 witness: releasing an unknown VM on a fresh service returns false and
changes nothing, and so does releasing with an unparseable XML a VM that is
in the ring. -/
theorem C5_release_guards_witness :
    s0.release "ghost" (some xmlPlain) = { state := s0, events := [], ok := false } ∧
    sNine.release "v" none = { state := sNine, events := [], ok := false } := by
  refine ⟨(C5_release_guards s0 "ghost" (some xmlPlain)).1 (by decide),
          (C5_release_guards sNine "v" none).2 "XmlParseError" (by decide)⟩

/-- C10: with the host (None) active, a D-Bus write of the empty string is
not the no-op that writing an equal value produces: the released flag is
cleared, the target becomes the empty string, grab() is called on the
registered device, and a PropertiesChanged with display form "host device"
is emitted. -/
theorem C10_empty_string_not_host :
    sKbd.target = none ∧
    (sKbd.setTarget (some "")).state.released = false ∧
    (sKbd.setTarget (some "")).state.target = some "" ∧
    (sKbd.setTarget (some "")).events =
      [SEvent.grabCalled "/dev/input/by-id/kbd",
       SEvent.propertiesChanged "host device"] := by
  decide

/-- C8: grab() on a replicated device writes nothing when the service reports
no target — in particular whenever the released flag is set, settling the
claim's open question: a released service counts as "no target set" because
grab consults the Target property getter — or when the exclusive
grab-and-release probe of the active sink raises IOError; on success it
writes exactly one press and one release of every configured QEMU hotkey
key, and a single SYN which is the last event. -/
theorem C8_grab_writes (mt : Option String) (qh : List Nat) (fails : Bool)
    (s : ServiceState) :
    (s.released = true →
      ReplicatedDevice.grabWrites s.targetGet (some qh) fails = []) ∧
    (pyTruthy mt = false →
      ReplicatedDevice.grabWrites mt (some qh) fails = []) ∧
    (pyTruthy mt = true → fails = true →
      ReplicatedDevice.grabWrites mt (some qh) fails = []) ∧
    (pyTruthy mt = true → fails = false → qh.Nodup →
      (∀ k ∈ qh,
        (ReplicatedDevice.grabWrites mt (some qh) fails).count (GEvent.keyEvent k 1) = 1 ∧
        (ReplicatedDevice.grabWrites mt (some qh) fails).count (GEvent.keyEvent k 0) = 1) ∧
      (ReplicatedDevice.grabWrites mt (some qh) fails).count GEvent.syn = 1 ∧
      (ReplicatedDevice.grabWrites mt (some qh) fails).getLast? = some GEvent.syn) := by
  refine ⟨?_, ?_, ?_, ?_⟩
  · intro h
    simp [ReplicatedDevice.grabWrites, ServiceState.targetGet, h, pyTruthy]
  · intro h
    simp [ReplicatedDevice.grabWrites, h]
  · intro h hf
    simp [ReplicatedDevice.grabWrites, h, hf]
  · intro h hf hnd
    have hcount : ∀ v : Nat, ∀ k ∈ qh,
        (ReplicatedDevice.grabWrites mt (some qh) fails).count (GEvent.keyEvent k v) =
          (qh.map (fun c => GEvent.keyEvent c 1)).count (GEvent.keyEvent k v) +
          (qh.map (fun c => GEvent.keyEvent c 0)).count (GEvent.keyEvent k v) := by
      intro v k hk
      simp [ReplicatedDevice.grabWrites, h, hf, List.count_append, List.count_cons]
    have hinj1 : Function.Injective (fun c : Nat => GEvent.keyEvent c 1) := by
      intro a b hab
      simpa using hab
    have hinj0 : Function.Injective (fun c : Nat => GEvent.keyEvent c 0) := by
      intro a b hab
      simpa using hab
    refine ⟨?_, ?_, ?_⟩
    · intro k hk
      have hz1 : (qh.map (fun c => GEvent.keyEvent c 0)).count (GEvent.keyEvent k 1) = 0 := by
        rw [List.count_eq_zero]
        simp
      have hz0 : (qh.map (fun c => GEvent.keyEvent c 1)).count (GEvent.keyEvent k 0) = 0 := by
        rw [List.count_eq_zero]
        simp
      constructor
      · rw [hcount 1 k hk, hz1, List.count_map_of_injective _ _ hinj1,
          List.count_eq_one_of_mem hnd hk]
      · rw [hcount 0 k hk, hz0, List.count_map_of_injective _ _ hinj0,
          List.count_eq_one_of_mem hnd hk]
    · have z1 : (qh.map (fun c => GEvent.keyEvent c 1)).count GEvent.syn = 0 := by
        rw [List.count_eq_zero]
        simp
      have z0 : (qh.map (fun c => GEvent.keyEvent c 0)).count GEvent.syn = 0 := by
        rw [List.count_eq_zero]
        simp
      simp [ReplicatedDevice.grabWrites, h, hf, List.count_append, z1, z0]
    · simp only [ReplicatedDevice.grabWrites, h, hf]
      rw [Bool.not_true]
      simp

/-- C8 witness: with the released flag set the grab writes nothing, and with
target "vm", hotkey keys 29 and 97 and a succeeding probe it writes exactly
one press and one release of key 29 and ends in a single SYN. -/
theorem C8_grab_writes_witness :
    ReplicatedDevice.grabWrites ({ s0 with released := true }).targetGet
      (some [29, 97]) false = [] ∧
    (ReplicatedDevice.grabWrites (some "vm") (some [29, 97]) false).count
      (GEvent.keyEvent 29 1) = 1 ∧
    (ReplicatedDevice.grabWrites (some "vm") (some [29, 97]) false).count
      (GEvent.keyEvent 29 0) = 1 ∧
    (ReplicatedDevice.grabWrites (some "vm") (some [29, 97]) false).getLast? =
      some GEvent.syn := by
  have h := C8_grab_writes (some "vm") [29, 97] false { s0 with released := true }
  have h4 := h.2.2.2 (by decide) rfl (by decide)
  exact ⟨h.1 rfl, (h4.1 29 (by decide)).1, (h4.1 29 (by decide)).2, h4.2.2⟩

/-- C9: when the VM name is in the target ring and the XML parses, Release
removes the first occurrence of the VM name from the ring before any device
teardown, so the ring is the erased one whatever teardown does, and the
boolean returned is exactly the success flag of the teardown walk — a false
return does not mean the state is unchanged. -/
theorem C9_removal_precedes_teardown (s : ServiceState) (vmName : String)
    (x : Option DomainXml) (cfg : VmConfig)
    (hm : some vmName ∈ s.targets) (hp : VmConfig.parse x = .ok cfg) :
    (s.release vmName x).state.targets = s.targets.erase (some vmName) ∧
    (s.release vmName x).ok =
      (destroyDevices vmName ((s.targets.erase (some vmName)).length == 1)
        s.devices cfg.devices).2 := by
  unfold ServiceState.release
  rw [if_pos hm, hp]
  by_cases ht : s.target = some vmName <;>
    simp [ht, ServiceState.setTarget]

/-- C9 witness: a service with VM v in the ring but an empty device registry;
releasing v with an XML that requests one device removes v from the ring and
then fails the teardown (KeyError), returning false with the ring already
changed. -/
theorem C9_removal_precedes_teardown_witness :
    (sNine.release "v" (some xmlV)).state.targets = [none] ∧
    (sNine.release "v" (some xmlV)).ok = false := by
  have h := C9_removal_precedes_teardown sNine "v" (some xmlV) cfgV
    (by decide) (by decide)
  constructor
  · rw [h.1]
    decide
  · rw [h.2]
    decide

/-- C4 counterexample: Prepare on a host with no character devices returns
false (device creation raised) yet the VM name has been appended to the
target ring, so a false return does not imply the VM is unregistered. -/
theorem C4_counterexample :
    (s0.prepare envNone "v" (some xmlV)).ok = false ∧
    some "v" ∈ (s0.prepare envNone "v" (some xmlV)).state.targets := by
  decide

/-- C4 (amended): Prepare returns true exactly when no step raises.  When the
XML fails to parse the state is unchanged and the VM is not registered; but
once the XML parses, the VM name is appended to the target ring
unconditionally, and the return value only reflects whether the device
creation walk then succeeded — a later failure leaves the VM registered. -/
theorem C4_amended (env : String → Bool) (s : ServiceState) (vmName : String)
    (x : Option DomainXml) :
    (∀ e, VmConfig.parse x = .error e →
      s.prepare env vmName x = { state := s, ok := false }) ∧
    (∀ cfg, VmConfig.parse x = .ok cfg →
      (s.prepare env vmName x).state.targets = s.targets ++ [some vmName] ∧
      (s.prepare env vmName x).ok =
        (createDevices env vmName ((assocGet s.vmOptions none).getD none)
          ((assocGet s.vmOptions (some vmName)).getD none)
          s.devices cfg.devices).2) := by
  constructor
  · intro e he
    simp [ServiceState.prepare, he]
  · intro cfg hc
    simp [ServiceState.prepare, hc]

/-- C4 witness: an unparseable XML leaves a fresh service unchanged with a
false return, and a parsed XML appends the VM name to the ring. -/
theorem C4_amended_witness :
    s0.prepare envNone "v" none = { state := s0, ok := false } ∧
    (s0.prepare envNone "v" (some xmlV)).state.targets = [none, some "v"] := by
  constructor
  · exact (C4_amended envNone s0 "v" none).1 "XmlParseError" (by decide)
  · rw [((C4_amended envNone s0 "v" (some xmlV)).2 cfgV (by decide)).1]
    decide

theorem listIndex_some_lt {α : Type} [DecidableEq α] {l : List α} {x : α} {i : Nat}
    (h : listIndex l x = some i) : i < l.length := by
  induction l generalizing i with
  | nil => simp [listIndex] at h
  | cons a t ih =>
    simp only [listIndex] at h
    split at h
    · cases h
      simp
    · cases hr : listIndex t x with
      | none =>
        rw [hr] at h
        simp at h
      | some j =>
        rw [hr] at h
        simp at h
        have := ih hr
        simp only [List.length_cons]
        omega

theorem listIndex_getD {α : Type} [DecidableEq α] {l : List α} {x : α} {i : Nat}
    (d : α) (h : listIndex l x = some i) : l.getD i d = x := by
  induction l generalizing i with
  | nil => simp [listIndex] at h
  | cons a t ih =>
    simp only [listIndex] at h
    split at h
    next he =>
      cases h
      simpa using he
    · cases hr : listIndex t x with
      | none =>
        rw [hr] at h
        simp at h
      | some j =>
        rw [hr] at h
        simp at h
        subst h
        simpa using ih hr

theorem getD_mem_of_lt {α : Type} (l : List α) (i : Nat) (d : α)
    (h : i < l.length) : l.getD i d ∈ l := by
  induction l generalizing i with
  | nil => simp at h
  | cons a t ih =>
    cases i with
    | zero => simp
    | succ j =>
      simp only [List.getD_cons_succ]
      exact List.mem_cons_of_mem a (ih j (by simpa using h))

theorem listIndex_of_mem {α : Type} [DecidableEq α] {l : List α} {x : α}
    (h : x ∈ l) : ∃ i, listIndex l x = some i := by
  induction l with
  | nil => simp at h
  | cons a t ih =>
    by_cases he : a = x
    · exact ⟨0, by simp [listIndex, he]⟩
    · have hx : x ∈ t := by
        rcases List.mem_cons.mp h with h1 | h1
        · exact absurd h1.symm he
        · exact h1
      obtain ⟨j, hj⟩ := ih hx
      exact ⟨j + 1, by simp [listIndex, he, hj]⟩

theorem listIndex_getD_of_nodup {α : Type} [DecidableEq α] {l : List α}
    (hN : l.Nodup) (i : Nat) (h : i < l.length) (d : α) :
    listIndex l (l.getD i d) = some i := by
  induction l generalizing i with
  | nil => simp at h
  | cons a t ih =>
    have hnotmem : a ∉ t := (List.nodup_cons.mp hN).1
    cases i with
    | zero => simp [listIndex]
    | succ j =>
      have hj : j < t.length := by simpa using h
      have hmem : t.getD j d ∈ t := getD_mem_of_lt t j d hj
      have hne : ¬ a = t.getD j d := fun he => hnotmem (he ▸ hmem)
      simp only [List.getD_cons_succ, listIndex, if_neg hne,
        ih (List.nodup_cons.mp hN).2 j hj]
      rfl

theorem setTarget_state_targets (s : ServiceState) (val : Option String) :
    (s.setTarget val).state.targets = s.targets := by
  unfold ServiceState.setTarget
  split <;> rfl

theorem setTarget_state_target (s : ServiceState) (val : Option String) :
    (s.setTarget val).state.target = val := by
  unfold ServiceState.setTarget
  split
  next h => exact h.symm
  next h => rfl

theorem setTarget_state_devices (s : ServiceState) (val : Option String) :
    (s.setTarget val).state.devices = s.devices := by
  unfold ServiceState.setTarget
  split <;> rfl

theorem toggle_step {s : ServiceState} {i : Nat}
    (h : listIndex s.targets s.target = some i) :
    s.toggle.state.targets = s.targets ∧
    s.toggle.state.target = s.targets.getD ((i + 1) % s.targets.length) none := by
  unfold ServiceState.toggle
  rw [h]
  exact ⟨setTarget_state_targets s _, setTarget_state_target s _⟩

theorem toggle_orbit (k : Nat) (s : ServiceState) (i : Nat)
    (hN : s.targets.Nodup) (h : listIndex s.targets s.target = some i) :
    (toggleN k s).targets = s.targets ∧
    (toggleN k s).target = s.targets.getD ((i + k) % s.targets.length) none := by
  induction k generalizing s i with
  | zero =>
    refine ⟨rfl, ?_⟩
    rw [Nat.add_zero, Nat.mod_eq_of_lt (listIndex_some_lt h)]
    exact (listIndex_getD none h).symm
  | succ k ih =>
    have hn : 0 < s.targets.length := by
      have := listIndex_some_lt h
      omega
    have hstep := toggle_step h
    have hidx : listIndex s.toggle.state.targets s.toggle.state.target =
        some ((i + 1) % s.targets.length) := by
      rw [hstep.1, hstep.2]
      exact listIndex_getD_of_nodup hN _ (Nat.mod_lt _ hn) none
    have hrec := ih s.toggle.state ((i + 1) % s.targets.length)
      (by rw [hstep.1]; exact hN) hidx
    rw [hstep.1] at hrec
    have harg : ((i + 1) % s.targets.length + k) % s.targets.length =
        (i + (k + 1)) % s.targets.length := by
      rw [Nat.mod_add_mod]
      congr 1
      omega
    rw [toggleN]
    exact ⟨hrec.1, by rw [hrec.2, harg]⟩

/-- C6 counterexample: after preparing the same VM name twice (permitted),
the ring is the host plus two copies of the name; from the host, calling
Toggle len(targets) = 3 times leaves the target stuck on the VM, not back at
the host, because `list.index` always finds the first duplicate. -/
theorem C6_counterexample :
    sDup.target = none ∧
    sDup.targets = [none, some "a", some "a"] ∧
    (toggleN sDup.targets.length sDup).target = some "a" := by
  decide

/-- C6 (amended): on any state whose target ring is duplicate-free and
contains the current target — every reachable state in which no VM name was
prepared twice and not released — calling Toggle len(targets) times in
succession restores the target to its initial value. -/
theorem C6_amended (s : ServiceState) (hN : s.targets.Nodup)
    (hm : s.target ∈ s.targets) :
    (toggleN s.targets.length s).target = s.target := by
  obtain ⟨i, hi⟩ := listIndex_of_mem hm
  have h := toggle_orbit s.targets.length s i hN hi
  rw [h.2, Nat.add_mod_right, Nat.mod_eq_of_lt (listIndex_some_lt hi)]
  exact listIndex_getD none hi

/-- C6 witness: one host and one VM, two toggles return to the start. -/
theorem C6_amended_witness :
    (toggleN sOne.targets.length sOne).target = sOne.target :=
  C6_amended sOne (by decide) (by decide)

/-- C2 counterexample: from a fresh service, one D-Bus write of an arbitrary
string to the Target property makes the target leave the targets list — the
setter performs no membership validation. -/
theorem C2_counterexample :
    (s0.setTarget (some "rogue")).state.target = some "rogue" ∧
    some "rogue" ∉ (s0.setTarget (some "rogue")).state.targets := by
  decide

theorem head?_cons_none {l : List (Option String)}
    (h : l.head? = some none) : ∃ t, l = none :: t := by
  cases l with
  | nil => simp at h
  | cons a t =>
    simp only [List.head?_cons, Option.some_inj] at h
    exact ⟨t, by rw [h]⟩

theorem targetInvariant_prepare {s : ServiceState} (env : String → Bool)
    (vmName : String) (x : Option DomainXml) (h : TargetInvariant s) :
    TargetInvariant (s.prepare env vmName x).state := by
  obtain ⟨hm, hh⟩ := h
  unfold ServiceState.prepare
  cases hp : VmConfig.parse x with
  | error e => exact ⟨hm, hh⟩
  | ok cfg =>
    refine ⟨List.mem_append_left _ hm, ?_⟩
    obtain ⟨t, ht⟩ := head?_cons_none hh
    simp [ht]

theorem targetInvariant_setTarget {s : ServiceState} {val : Option String}
    (hv : val ∈ s.targets) (h : TargetInvariant s) :
    TargetInvariant (s.setTarget val).state := by
  refine ⟨?_, ?_⟩
  · rw [setTarget_state_target, setTarget_state_targets]
    exact hv
  · rw [setTarget_state_targets]
    exact h.2

theorem targetInvariant_toggle {s : ServiceState} (h : TargetInvariant s) :
    TargetInvariant s.toggle.state := by
  cases hidx : listIndex s.targets s.target with
  | none =>
    have : s.toggle = { state := s, events := [], ret := none, ok := false } := by
      unfold ServiceState.toggle
      rw [hidx]
    rw [this]
    exact h
  | some i =>
    have hstep := toggle_step hidx
    have hn : 0 < s.targets.length := by
      have := listIndex_some_lt hidx
      omega
    refine ⟨?_, ?_⟩
    · rw [hstep.1, hstep.2]
      exact getD_mem_of_lt _ _ _ (Nat.mod_lt _ hn)
    · rw [hstep.1]
      exact h.2

theorem release_ok_step {s : ServiceState} {vmName : String}
    {x : Option DomainXml} {cfg : VmConfig}
    (hm : some vmName ∈ s.targets) (hp : VmConfig.parse x = .ok cfg) :
    (s.release vmName x).state.targets = s.targets.erase (some vmName) ∧
    (s.release vmName x).state.target =
      (if s.target = some vmName then none else s.target) ∧
    (s.release vmName x).state.devices =
      (destroyDevices vmName ((s.targets.erase (some vmName)).length == 1)
        s.devices cfg.devices).1 ∧
    (s.release vmName x).ok =
      (destroyDevices vmName ((s.targets.erase (some vmName)).length == 1)
        s.devices cfg.devices).2 ∧
    (s.release vmName x).state.released =
      (if s.target = some vmName then false else s.released) := by
  unfold ServiceState.release
  rw [if_pos hm, hp]
  by_cases htv : s.target = some vmName <;>
    simp [htv, ServiceState.setTarget]

theorem release_not_mem {s : ServiceState} {vmName : String}
    (x : Option DomainXml) (hv : some vmName ∉ s.targets) :
    s.release vmName x = { state := s, events := [], ok := false } := by
  simp [ServiceState.release, hv]

theorem release_parse_error {s : ServiceState} {vmName : String}
    {x : Option DomainXml} {e : String} (he : VmConfig.parse x = .error e) :
    s.release vmName x = { state := s, events := [], ok := false } := by
  by_cases hv : some vmName ∈ s.targets <;>
    simp [ServiceState.release, hv, he]

theorem targetInvariant_release {s : ServiceState} (vmName : String)
    (x : Option DomainXml) (h : TargetInvariant s) :
    TargetInvariant (s.release vmName x).state := by
  obtain ⟨hm, hh⟩ := h
  by_cases hv : some vmName ∈ s.targets
  · cases hp : VmConfig.parse x with
    | error e => rw [release_parse_error hp]; exact ⟨hm, hh⟩
    | ok cfg =>
      obtain ⟨t, ht⟩ := head?_cons_none hh
      have herase : s.targets.erase (some vmName) = none :: t.erase (some vmName) := by
        rw [ht, List.erase_cons_tail]
        simp
      have hstep := release_ok_step hv hp
      refine ⟨?_, ?_⟩
      · rw [hstep.1, hstep.2.1]
        by_cases htv : s.target = some vmName
        · rw [if_pos htv, herase]
          simp
        · rw [if_neg htv]
          exact (List.mem_erase_of_ne htv).mpr hm
      · rw [hstep.1, herase]
        simp
  · rw [release_not_mem x hv]
    exact ⟨hm, hh⟩

/-- C2 (amended): in every state reachable by Prepare, Release, Toggle, and
D-Bus Target writes restricted to members of the current targets list, the
current target is a member of the targets list and the list starts with the
host sentinel.  The restriction on writes is forced: the setter accepts any
string without validation (see the counterexample). -/
theorem C2_amended (env : String → Bool)
    (vmOptions : List (Option String × Option Hotkey))
    (manageCpu manageHugepages : Bool)
    (hotkey qemuHotkey releaseHotkey : Option Hotkey) (s : ServiceState)
    (h : ReachableM env vmOptions manageCpu manageHugepages hotkey qemuHotkey
      releaseHotkey s) : TargetInvariant s := by
  induction h with
  | init =>
    exact ⟨by simp [ServiceState.init], by simp [ServiceState.init]⟩
  | prepare vmName x _ ih => exact targetInvariant_prepare env vmName x ih
  | release vmName x _ ih => exact targetInvariant_release vmName x ih
  | toggle _ ih => exact targetInvariant_toggle ih
  | writeTarget val _ hv ih => exact targetInvariant_setTarget hv ih

/-- C2 witness: the invariant holds on the concrete state reached by one
Prepare from a fresh service. -/
theorem C2_amended_witness :
    sOne.target ∈ sOne.targets ∧ sOne.targets.head? = some none :=
  C2_amended envNone [] false false none none none sOne
    (ReachableM.prepare "a" (some xmlPlain) ReachableM.init)

theorem assocGet_append_of_none {α β : Type} [DecidableEq α]
    {R : List (α × β)} {k : α} (L : List (α × β))
    (h : assocGet R k = none) : assocGet (R ++ L) k = assocGet L k := by
  induction R with
  | nil => rfl
  | cons p t ih =>
    obtain ⟨a, b⟩ := p
    simp only [assocGet, List.cons_append] at h ⊢
    by_cases ha : a = k
    · rw [if_pos ha] at h
      exact absurd h (by simp)
    · rw [if_neg ha] at h ⊢
      exact ih h

theorem assocSet_append_of_none {α β : Type} [DecidableEq α]
    {R : List (α × β)} {k : α} (L : List (α × β)) (v : β)
    (h : assocGet R k = none) :
    assocSet (R ++ L) k v = R ++ assocSet L k v := by
  induction R with
  | nil => rfl
  | cons p t ih =>
    obtain ⟨a, b⟩ := p
    simp only [assocGet, List.cons_append, assocSet] at h ⊢
    by_cases ha : a = k
    · rw [if_pos ha] at h
      exact absurd h (by simp)
    · rw [if_neg ha] at h ⊢
      exact congrArg (fun ll => (a, b) :: ll) (ih h)

theorem assocErase_append_of_none {α β : Type} [DecidableEq α]
    {R : List (α × β)} {k : α} (L : List (α × β))
    (h : assocGet R k = none) :
    assocErase (R ++ L) k = R ++ assocErase L k := by
  induction R with
  | nil => rfl
  | cons p t ih =>
    obtain ⟨a, b⟩ := p
    simp only [assocGet, List.cons_append, assocErase] at h ⊢
    by_cases ha : a = k
    · rw [if_pos ha] at h
      exact absurd h (by simp)
    · rw [if_neg ha] at h ⊢
      exact congrArg (fun ll => (a, b) :: ll) (ih h)

theorem assocSet_of_none {α β : Type} [DecidableEq α]
    {R : List (α × β)} {k : α} (v : β)
    (h : assocGet R k = none) : assocSet R k v = R ++ [(k, v)] := by
  induction R with
  | nil => rfl
  | cons p t ih =>
    obtain ⟨a, b⟩ := p
    simp only [assocGet, assocSet, List.cons_append] at h ⊢
    by_cases ha : a = k
    · rw [if_pos ha] at h
      exact absurd h (by simp)
    · rw [if_neg ha] at h ⊢
      rw [ih h]

theorem createDevices_shape (env : String → Bool) (vmName : String)
    (hh gh : Option Hotkey) (l : List String) :
    ∀ (R : List (String × ReplicatedDevice)),
    (∀ g ∈ l, assocGet R (sourceFor vmName g) = none) →
    (l.map (sourceFor vmName)).Nodup →
    (createDevices env vmName hh gh R l).2 = true →
    (createDevices env vmName hh gh R l).1 =
      R ++ l.map (fun g => (sourceFor vmName g,
        (freshDevice (sourceFor vmName g) hh).add vmName gh)) := by
  induction l with
  | nil =>
    intro R _ _ _
    simp [createDevices]
  | cons g rest ih =>
    intro R hdisj hnd hok
    have hg : assocGet R (sourceFor vmName g) = none := hdisj g (by simp)
    have hnotin : sourceFor vmName g ∉ rest.map (sourceFor vmName) :=
      (List.nodup_cons.mp (by simpa using hnd)).1
    simp only [createDevices, hg] at hok ⊢
    by_cases he : env (sourceFor vmName g)
    · have hnew : ReplicatedDevice.new env (sourceFor vmName g) hh =
          .ok (freshDevice (sourceFor vmName g) hh) := by
        simp [ReplicatedDevice.new, he]
      simp only [hnew] at hok ⊢
      have hset := assocSet_of_none
        ((freshDevice (sourceFor vmName g) hh).add vmName gh) hg
      rw [hset] at hok ⊢
      have hdisj2 : ∀ g2 ∈ rest,
          assocGet (R ++ [(sourceFor vmName g,
            (freshDevice (sourceFor vmName g) hh).add vmName gh)])
            (sourceFor vmName g2) = none := by
        intro g2 hg2
        rw [assocGet_append_of_none _ (hdisj g2 (List.mem_cons_of_mem g hg2))]
        have hne : ¬ sourceFor vmName g = sourceFor vmName g2 := by
          intro he2
          exact hnotin (he2 ▸ List.mem_map_of_mem (sourceFor vmName) hg2)
        simp [assocGet, hne]
      have hnd2 : (rest.map (sourceFor vmName)).Nodup :=
        (List.nodup_cons.mp (by simpa using hnd)).2
      rw [ih _ hdisj2 hnd2 hok, List.append_assoc]
      simp
    · have hnew : ReplicatedDevice.new env (sourceFor vmName g) hh =
          .error "IOError: No such device" := by
        simp [ReplicatedDevice.new, he]
      simp only [hnew] at hok
      exact absurd hok (by simp)

theorem destroyDevices_clean (vmName : String)
    (f : String → ReplicatedDevice) (l : List String) :
    ∀ (R : List (String × ReplicatedDevice)),
    (∀ g ∈ l, assocGet R (sourceFor vmName g) = none) →
    (l.map (sourceFor vmName)).Nodup →
    destroyDevices vmName true
      (R ++ l.map (fun g => (sourceFor vmName g, f g))) l = (R, true) := by
  induction l with
  | nil =>
    intro R _ _
    simp [destroyDevices]
  | cons g rest ih =>
    intro R hdisj hnd
    have hg : assocGet R (sourceFor vmName g) = none := hdisj g (by simp)
    have hnotin : sourceFor vmName g ∉ rest.map (sourceFor vmName) :=
      (List.nodup_cons.mp (by simpa using hnd)).1
    have hget : assocGet (R ++ (sourceFor vmName g, f g) ::
        rest.map (fun g2 => (sourceFor vmName g2, f g2))) (sourceFor vmName g) =
        some (f g) := by
      rw [assocGet_append_of_none _ hg]
      simp [assocGet]
    have hset : assocSet (R ++ (sourceFor vmName g, f g) ::
        rest.map (fun g2 => (sourceFor vmName g2, f g2))) (sourceFor vmName g)
        ((f g).remove vmName none) =
        R ++ (sourceFor vmName g, (f g).remove vmName none) ::
          rest.map (fun g2 => (sourceFor vmName g2, f g2)) := by
      rw [assocSet_append_of_none _ _ hg]
      simp [assocSet]
    have herase : assocErase (R ++ (sourceFor vmName g, (f g).remove vmName none) ::
        rest.map (fun g2 => (sourceFor vmName g2, f g2))) (sourceFor vmName g) =
        R ++ rest.map (fun g2 => (sourceFor vmName g2, f g2)) := by
      rw [assocErase_append_of_none _ hg]
      simp [assocErase]
    have hdisj2 : ∀ g2 ∈ rest, assocGet R (sourceFor vmName g2) = none :=
      fun g2 hg2 => hdisj g2 (List.mem_cons_of_mem g hg2)
    have hnd2 : (rest.map (sourceFor vmName)).Nodup :=
      (List.nodup_cons.mp (by simpa using hnd)).2
    simp only [List.map_cons, destroyDevices, hget, hset, herase, if_true]
    exact ih R hdisj2 hnd2

theorem prepare_ok_step {s : ServiceState} {env : String → Bool}
    {vmName : String} {x : Option DomainXml} {cfg : VmConfig}
    (hp : VmConfig.parse x = .ok cfg) :
    (s.prepare env vmName x).state =
      { s with targets := s.targets ++ [some vmName]
               devices := (createDevices env vmName
                 ((assocGet s.vmOptions none).getD none)
                 ((assocGet s.vmOptions (some vmName)).getD none)
                 s.devices cfg.devices).1 } ∧
    (s.prepare env vmName x).ok =
      (createDevices env vmName ((assocGet s.vmOptions none).getD none)
        ((assocGet s.vmOptions (some vmName)).getD none)
        s.devices cfg.devices).2 := by
  simp [ServiceState.prepare, hp]

/-- C7 counterexample: the round trip fails to restore the devices registry
in three reachable situations.  (A) With a second VM registered, a
successful Prepare(v) then Release(v) leaves the device created for v in the
registry, stopped, because the registry entry is only deleted when the
released VM is the last one.  (B) Even from an empty service, when two
requested paths map to the same source before a distinct one, Release aborts
on the duplicate (KeyError) and leaves the later source's entry behind.
(C) A stale registry entry present before the Prepare is deleted by the
Release, so the registry is not restored either. -/
theorem C7_counterexample :
    (sW.prepare envKbdMs "v" (some xmlV)).ok = true ∧
    sW.devices = [] ∧
    ((sW.prepare envKbdMs "v" (some xmlV)).state.release "v" (some xmlV)).ok = true ∧
    ((sW.prepare envKbdMs "v" (some xmlV)).state.release "v"
      (some xmlV)).state.devices.length = 1 ∧
    (s0.prepare envKbdMs "v" (some xmlMulti)).ok = true ∧
    ((s0.prepare envKbdMs "v" (some xmlMulti)).state.release "v"
      (some xmlMulti)).state.devices.length = 1 ∧
    sStale.devices.length = 1 ∧
    (sStale.prepare envKbdMs "v" (some xmlV)).ok = true ∧
    ((sStale.prepare envKbdMs "v" (some xmlV)).state.release "v"
      (some xmlV)).state.devices = [] := by
  decide

/-- C7 (amended): from a state with no registered VM, an empty device
registry and the host active, a successful Prepare(v, xml) immediately
followed by Release(v, xml) with the same parseable XML, whose requested
paths map to pairwise-distinct sources, restores the targets list, the
devices registry (hence the grab and open state of every source device), the
active target, and the released flag to their pre-Prepare values.  The
restrictions are forced by the counterexample: a second registered VM, a
repeated source, or a stale registry entry each break restoration. -/
theorem C7_amended (env : String → Bool) (s : ServiceState) (vmName : String)
    (x : Option DomainXml) (cfg : VmConfig)
    (hT : s.targets = [none]) (hD : s.devices = []) (ht : s.target = none)
    (hp : VmConfig.parse x = .ok cfg)
    (hnd : (cfg.devices.map (sourceFor vmName)).Nodup)
    (hok : (s.prepare env vmName x).ok = true) :
    ((s.prepare env vmName x).state.release vmName x).state.targets = s.targets ∧
    ((s.prepare env vmName x).state.release vmName x).state.devices = s.devices ∧
    ((s.prepare env vmName x).state.release vmName x).state.target = s.target ∧
    ((s.prepare env vmName x).state.release vmName x).state.released = s.released := by
  obtain ⟨hps, hpo⟩ := @prepare_ok_step s env vmName x cfg hp
  rw [hpo] at hok
  rw [hD] at hok
  have hshape := createDevices_shape env vmName
    ((assocGet s.vmOptions none).getD none)
    ((assocGet s.vmOptions (some vmName)).getD none)
    cfg.devices [] (by simp [assocGet]) hnd hok
  rw [List.nil_append] at hshape
  have hm1 : some vmName ∈ (s.prepare env vmName x).state.targets := by
    rw [hps]
    exact List.mem_append_right _ (by simp)
  have hrel := release_ok_step hm1 hp
  have htargets1 : (s.prepare env vmName x).state.targets = [none, some vmName] := by
    rw [hps, hT]
    rfl
  have herase : (s.prepare env vmName x).state.targets.erase (some vmName) = [none] := by
    rw [htargets1, List.erase_cons_tail (by simp), List.erase_cons_head]
  have htarget1 : (s.prepare env vmName x).state.target = none := by
    rw [hps]
    exact ht
  have hcond : ¬ (s.prepare env vmName x).state.target = some vmName := by
    rw [htarget1]
    simp
  have hdevices1 : (s.prepare env vmName x).state.devices =
      cfg.devices.map (fun g => (sourceFor vmName g,
        (freshDevice (sourceFor vmName g)
          ((assocGet s.vmOptions none).getD none)).add vmName
          ((assocGet s.vmOptions (some vmName)).getD none))) := by
    rw [hps]
    simpa [hD] using hshape
  have hdestroy := destroyDevices_clean vmName
    (fun g => (freshDevice (sourceFor vmName g)
      ((assocGet s.vmOptions none).getD none)).add vmName
      ((assocGet s.vmOptions (some vmName)).getD none))
    cfg.devices [] (by simp [assocGet]) hnd
  rw [List.nil_append] at hdestroy
  refine ⟨?_, ?_, ?_, ?_⟩
  · rw [hrel.1, herase, hT]
  · rw [hrel.2.2.1, herase, hdevices1]
    simp only [List.length_cons, List.length_nil]
    rw [show ((0 + 1 : Nat) == 1) = true from rfl, hD]
    exact congrArg Prod.fst hdestroy
  · rw [hrel.2.1, if_neg hcond, htarget1, ht]
  · rw [hrel.2.2.2.2, if_neg hcond, hps]

/-- C7 witness: from a fresh service, preparing VM v with one requested
device on a host where the source exists, then releasing it with the same
XML, restores the targets list, registry, target and released flag. -/
theorem C7_amended_witness :
    ((s0.prepare envKbdMs "v" (some xmlV)).state.release "v"
      (some xmlV)).state.targets = s0.targets ∧
    ((s0.prepare envKbdMs "v" (some xmlV)).state.release "v"
      (some xmlV)).state.devices = s0.devices ∧
    ((s0.prepare envKbdMs "v" (some xmlV)).state.release "v"
      (some xmlV)).state.target = s0.target ∧
    ((s0.prepare envKbdMs "v" (some xmlV)).state.release "v"
      (some xmlV)).state.released = s0.released :=
  C7_amended envKbdMs s0 "v" (some xmlV) cfgV (by decide) (by decide)
    (by decide) (by decide) (by decide) (by decide)
